import Mathlib

/-!
Shallow embedding of the trade-ingestion and position-ledger logic of the
polymarket-tracker backend.

The relational state (tables `trades`, `traders`, `trader_positions`,
`alerts` created by `initDatabase` in `src/server.js`) is modelled as lists
of rows; monetary amounts and prices are rationals, timestamps are integers.
The ingestion operations `storeTrade`, `updateTraderPosition`,
`checkForAlerts` and the stat recomputation `calculateTraderStats` are
translated from `src/server.js`; the edge-function ingestion loop is
translated from `src/supabase/functions/fetch-trades/index.ts`; the
per-trade P/L expression is translated from the
`calculate_trader_performance` SQL function in
`src/supabase/migrations/20260201_add_market_resolution_columns.sql`.
-/

namespace PolymarketTracker

/-- A row of the `trades` table (`tx_hash` is UNIQUE). -/
structure TradeRow where
  txHash : String
  marketId : String
  traderAddress : String
  outcome : String
  amount : ℚ
  price : ℚ
  timestamp : ℤ
deriving DecidableEq

/-- A row of the `traders` table (wins, losses, profit_loss default 0). -/
structure TraderRow where
  address : String
  totalVolume : ℚ
  totalBets : ℕ
  wins : ℕ
  losses : ℕ
  profitLoss : ℚ
  lastActivity : ℤ
deriving DecidableEq

/-- A row of the `trader_positions` table (`id` is SERIAL; `status`
defaults to "open", `resolved` to FALSE, `profit_loss` is nullable). -/
structure PositionRow where
  id : ℕ
  traderAddress : String
  marketId : String
  outcome : String
  shares : ℚ
  avgPrice : ℚ
  status : String
  resolved : Bool
  profitLoss : Option ℚ
deriving DecidableEq

/-- A row of the `alerts` table. Note the table has no trade-id column. -/
structure AlertRow where
  type : String
  traderAddress : String
  marketId : String
  amount : ℚ
deriving DecidableEq

/-- The ledger state: the four tables touched by ingestion, plus the next
SERIAL value for `trader_positions.id`. -/
structure DB where
  trades : List TradeRow
  traders : List TraderRow
  positions : List PositionRow
  alerts : List AlertRow
  nextPositionId : ℕ
deriving DecidableEq

/-- A trade record as consumed by `storeTrade` in `src/server.js`
(the subgraph shape: `trade.id`, `trade.market.id`, `trade.trader.id`,
`outcome`, `amount`, `price`, `timestamp`). -/
structure Trade where
  id : String
  marketId : String
  traderId : String
  outcome : String
  amount : ℚ
  price : ℚ
  timestamp : ℤ
deriving DecidableEq

/-- The `INSERT INTO trades ... ON CONFLICT (tx_hash) DO NOTHING` of
`storeTrade` (src/server.js lines 214-227). -/
def insertTradeRow (db : DB) (t : Trade) : DB :=
  if db.trades.any (fun r => r.txHash == t.id) then db
  else { db with trades := db.trades ++
    [⟨t.id, t.marketId, t.traderId, t.outcome, t.amount, t.price, t.timestamp⟩] }

/-- The `INSERT INTO traders ... ON CONFLICT (address) DO UPDATE SET
total_volume = traders.total_volume + $2, total_bets = traders.total_bets + 1,
last_activity = $3` of `storeTrade` (src/server.js lines 230-243). -/
def upsertTraderStats (db : DB) (t : Trade) : DB :=
  if db.traders.any (fun r => r.address == t.traderId) then
    { db with traders := db.traders.map (fun r =>
        if r.address == t.traderId then
          { r with totalVolume := r.totalVolume + t.amount,
                   totalBets := r.totalBets + 1,
                   lastActivity := t.timestamp }
        else r) }
  else
    { db with traders := db.traders ++ [⟨t.traderId, t.amount, 1, 0, 0, 0, t.timestamp⟩] }

/-- The WHERE clause of the SELECT in `updateTraderPosition`
(src/server.js lines 258-262): same trader, market, outcome, status open. -/
def matchesOpen (t : Trade) (p : PositionRow) : Bool :=
  p.traderAddress == t.traderId && p.marketId == t.marketId &&
    p.outcome == t.outcome && p.status == "open"

/-- `updateTraderPosition` (src/server.js lines 256-291): reads the open
position for the key; if one exists, shares and avg_price are updated by the
weighted-average formulas; otherwise a new position row is inserted with
shares = amount/price and avg_price = price. -/
def updateTraderPosition (db : DB) (t : Trade) : DB :=
  let shares := t.amount / t.price
  match db.positions.find? (matchesOpen t) with
  | some pos =>
      let newShares := pos.shares + shares
      let newAvgPrice := (pos.shares * pos.avgPrice + shares * t.price) / newShares
      { db with positions := db.positions.map (fun p =>
          if p.id == pos.id then { p with shares := newShares, avgPrice := newAvgPrice } else p) }
  | none =>
      { db with
          positions := db.positions ++
            [⟨db.nextPositionId, t.traderId, t.marketId, t.outcome, shares, t.price, "open", false, none⟩],
          nextPositionId := db.nextPositionId + 1 }

/-- `checkForAlerts` (src/server.js lines 294-328): amount ≥ 50000 inserts a
mega_whale alert row, else amount ≥ 10000 inserts a whale alert row, else
nothing. The insert has no conflict clause and carries no trade id. -/
def checkForAlerts (db : DB) (t : Trade) : DB :=
  if t.amount ≥ 50000 then
    { db with alerts := db.alerts ++ [⟨"mega_whale", t.traderId, t.marketId, t.amount⟩] }
  else if t.amount ≥ 10000 then
    { db with alerts := db.alerts ++ [⟨"whale", t.traderId, t.marketId, t.amount⟩] }
  else db

/-- `storeTrade` (src/server.js lines 211-253): stores the trade fact
(idempotently on tx_hash), then unconditionally updates trader stats,
the position, and alerts. -/
def storeTrade (db : DB) (t : Trade) : DB :=
  checkForAlerts (updateTraderPosition (upsertTraderStats (insertTradeRow db t) t) t) t

/-- The step at which a single-trade ingestion is interrupted. `storeTrade`
runs four separate queries with no surrounding transaction; a query that
throws while inserting the trade or upserting the trader is caught by
`storeTrade`'s own try/catch, which skips the remaining steps, while
`updateTraderPosition` and `checkForAlerts` each swallow their own errors,
so a failure there skips only that one step. -/
inductive FailStep
  | insertTrade
  | upsertTrader
  | updatePosition
  | alerts
deriving DecidableEq

/-- `storeTrade` under a failure of one step, following the try/catch
structure of src/server.js: every query that ran before the failure keeps
its effect (each auto-commits; there is no BEGIN/COMMIT anywhere). -/
def storeTradeFailing (failAt : Option FailStep) (db : DB) (t : Trade) : DB :=
  match failAt with
  | none => storeTrade db t
  | some .insertTrade => db
  | some .upsertTrader => insertTradeRow db t
  | some .updatePosition => checkForAlerts (upsertTraderStats (insertTradeRow db t) t) t
  | some .alerts => updateTraderPosition (upsertTraderStats (insertTradeRow db t) t) t

/-- `calculateTraderStats` (src/server.js lines 331-365): aggregates the
trader's resolved positions (COUNT, wins = count of profit_loss > 0,
losses = count of profit_loss < 0, SUM(profit_loss) ignoring NULLs) and
updates the trader row only when at least one resolved position exists. -/
def calculateTraderStats (db : DB) (address : String) : DB :=
  let resolvedPos := db.positions.filter (fun p => p.traderAddress == address && p.resolved)
  let totalPositions := resolvedPos.length
  let wins := (resolvedPos.filter (fun p => match p.profitLoss with
      | some v => decide (v > 0)
      | none => false)).length
  let losses := (resolvedPos.filter (fun p => match p.profitLoss with
      | some v => decide (v < 0)
      | none => false)).length
  let totalProfitLoss := (resolvedPos.filterMap (fun p => p.profitLoss)).sum
  if totalPositions > 0 then
    { db with traders := db.traders.map (fun r =>
        if r.address == address then
          { r with wins := wins, losses := losses, profitLoss := totalProfitLoss }
        else r) }
  else db

/-- Helper: the first `traders` row for an address (traders.address is the
PRIMARY KEY, so at most one row exists in a well-formed state). -/
def findTrader (db : DB) (address : String) : Option TraderRow :=
  db.traders.find? (fun r => r.address == address)

/-- A raw record of the Polymarket data API as consumed by the fetch-trades
edge function (src/supabase/functions/fetch-trades/index.ts). -/
structure FeedTrade where
  transactionHash : String
  slug : String
  proxyWallet : String
  outcome : String
  size : ℚ
  price : ℚ
  timestamp : ℤ
deriving DecidableEq

/-- The trades upsert of the edge function: on tx_hash conflict the row is
replaced with the supplied values (supabase upsert semantics). -/
def feedUpsertTradeRow (db : DB) (r : TradeRow) : DB :=
  if db.trades.any (fun q => q.txHash == r.txHash) then
    { db with trades := db.trades.map (fun q => if q.txHash == r.txHash then r else q) }
  else { db with trades := db.trades ++ [r] }

/-- The traders upsert of the edge function: on address conflict the row's
total_volume, total_bets and last_activity are replaced with the supplied
values (literally `total_volume: amount, total_bets: 1`). -/
def feedUpsertTrader (db : DB) (address : String) (amount : ℚ) (ts : ℤ) : DB :=
  if db.traders.any (fun r => r.address == address) then
    { db with traders := db.traders.map (fun r =>
        if r.address == address then
          { r with totalVolume := amount, totalBets := 1, lastActivity := ts }
        else r) }
  else { db with traders := db.traders ++ [⟨address, amount, 1, 0, 0, 0, ts⟩] }

/-- The per-trade body of the ingestion loop in
src/supabase/functions/fetch-trades/index.ts (lines 38-80): amount is
size · price; trades with amount < 100 are skipped via `continue`; otherwise
the trade is upserted, the trader row is upserted, and for amount ≥ 10000 an
alert row is inserted (mega_whale when amount ≥ 50000, else whale). -/
def fetchTradesStep (db : DB) (t : FeedTrade) : DB :=
  let amount := t.size * t.price
  if amount < 100 then db
  else
    let db1 := feedUpsertTradeRow db
      ⟨t.transactionHash, t.slug, t.proxyWallet, t.outcome, amount, t.price, t.timestamp⟩
    let db2 := feedUpsertTrader db1 t.proxyWallet amount t.timestamp
    if amount ≥ 10000 then
      { db2 with alerts := db2.alerts ++
          [⟨if amount ≥ 50000 then "mega_whale" else "whale", t.proxyWallet, t.slug, amount⟩] }
    else db2

/-- The alert classification implicit in both `checkForAlerts`
(src/server.js) and the edge-function alert insert: a pure function of the
trade's notional amount. -/
inductive AlertKind
  | none
  | whale
  | megaWhale
deriving DecidableEq

/-- The threshold branches of `checkForAlerts` (src/server.js lines
296-324): amount ≥ 50000 → mega_whale, else amount ≥ 10000 → whale,
else none. -/
def classify (amount : ℚ) : AlertKind :=
  if amount ≥ 50000 then .megaWhale
  else if amount ≥ 10000 then .whale
  else .none

/-- The per-trade P/L CASE expression of `calculate_trader_performance`
(src/supabase/migrations/20260201_add_market_resolution_columns.sql lines
44-51): a winning trade contributes amount · (1/price − 1), a losing trade
in a resolved market with a known winner contributes −amount, else 0. -/
def tradePL (resolved : Bool) (winningOutcome : Option String) (r : TradeRow) : ℚ :=
  if winningOutcome = some r.outcome then r.amount * (1 / r.price - 1)
  else if resolved ∧ winningOutcome ≠ none then -r.amount
  else 0

/-- The position-update arithmetic of the existing-position branch of
`updateTraderPosition` (src/server.js lines 270-272), as a pure step on
(shares, avgPrice). -/
def positionStep (pos : ℚ × ℚ) (amount price : ℚ) : ℚ × ℚ :=
  let shares := amount / price
  let newShares := pos.1 + shares
  (newShares, (pos.1 * pos.2 + shares * price) / newShares)

/-- A sequence of fills (amount, price) applied to one position key exactly
as `updateTraderPosition` does: the first fill creates the position with
shares = amount/price and avgPrice = price, each later fill goes through
the weighted-average update. -/
def applyFills : List (ℚ × ℚ) → Option (ℚ × ℚ)
  | [] => Option.none
  | f :: rest => some (rest.foldl (fun pos g => positionStep pos g.1 g.2) (f.1 / f.2, f.2))

/-- Sum of the per-fill share deltas amount/price. -/
def fillShares (l : List (ℚ × ℚ)) : ℚ := (l.map (fun f => f.1 / f.2)).sum

/-- Sum of the per-fill notional amounts. -/
def fillNotional (l : List (ℚ × ℚ)) : ℚ := (l.map Prod.fst).sum

/-- The `trades` rows a sequence of fills for one (trader, market, outcome)
key leaves in the trade-fact table, as read back by
`calculate_trader_performance` (only outcome, amount and price matter to
its P/L expression). -/
def tradeRowsOf (o : String) (l : List (ℚ × ℚ)) : List TradeRow :=
  l.map (fun f => ⟨"", "", "", o, f.1, f.2, 0⟩)

/-- An empty ledger (SERIAL ids start at 1). -/
def emptyDB : DB := ⟨[], [], [], [], 1⟩

/-- Sample trade: alice wagers 5000 at price 0.4 on Yes in market m1. -/
def tradeA : Trade := ⟨"0xa", "m1", "alice", "Yes", 5000, 2/5, 100⟩

/-- Sample trade: alice wagers 3000 at price 0.6 on the same key. -/
def tradeB : Trade := ⟨"0xb", "m1", "alice", "Yes", 3000, 3/5, 200⟩

/-- Sample trade: bob wagers exactly 50000, the mega-whale threshold. -/
def megaTrade : Trade := ⟨"0xm", "m1", "bob", "Yes", 50000, 1/2, 100⟩

/-- Sample trade whose event time (50) predates tradeA's (100). -/
def tradeOld : Trade := ⟨"0xt2", "m1", "alice", "Yes", 300, 1/2, 50⟩

/-- Sample feed record whose notional is 100 · 0.5 = 50, below the dust
threshold of the edge function. -/
def dustFeed : FeedTrade := ⟨"0xd", "m1", "dave", "Yes", 100, 1/2, 100⟩

/-- A ledger whose only position for (alice, m1, Yes) is already settled. -/
def dbSettled : DB :=
  ⟨[], [], [⟨1, "alice", "m1", "Yes", 100, 1/2, "settled", true, some 50⟩], [], 2⟩

/-- A ledger holding a fresh trader row for alice and nothing else. -/
def dbAlice : DB := ⟨[], [⟨"alice", 0, 0, 0, 0, 0, 0⟩], [], [], 1⟩

/-- A ledger where carol already has wins, losses and profit on her trader
row and a single open, unresolved position. -/
def dbCarol : DB :=
  ⟨[], [⟨"carol", 10, 3, 2, 1, 7, 5⟩],
   [⟨1, "carol", "m2", "No", 10, 1/2, "open", false, Option.none⟩], [], 2⟩

/-- A ledger whose only position is the open position of the spec scenario:
alice holds 12500 shares of (m1, Yes) at average price 0.4. -/
def dbOpen : DB :=
  ⟨[], [], [⟨1, "alice", "m1", "Yes", 12500, 2/5, "open", false, Option.none⟩], [], 2⟩

/-! Frame lemmas: each ingestion step touches only its own table. -/

lemma insertTradeRow_traders (db : DB) (t : Trade) :
    (insertTradeRow db t).traders = db.traders := by
  unfold insertTradeRow; split <;> rfl

lemma insertTradeRow_positions (db : DB) (t : Trade) :
    (insertTradeRow db t).positions = db.positions := by
  unfold insertTradeRow; split <;> rfl

lemma insertTradeRow_alerts (db : DB) (t : Trade) :
    (insertTradeRow db t).alerts = db.alerts := by
  unfold insertTradeRow; split <;> rfl

lemma insertTradeRow_nextPositionId (db : DB) (t : Trade) :
    (insertTradeRow db t).nextPositionId = db.nextPositionId := by
  unfold insertTradeRow; split <;> rfl

lemma upsertTraderStats_trades (db : DB) (t : Trade) :
    (upsertTraderStats db t).trades = db.trades := by
  unfold upsertTraderStats; split <;> rfl

lemma upsertTraderStats_positions (db : DB) (t : Trade) :
    (upsertTraderStats db t).positions = db.positions := by
  unfold upsertTraderStats; split <;> rfl

lemma upsertTraderStats_alerts (db : DB) (t : Trade) :
    (upsertTraderStats db t).alerts = db.alerts := by
  unfold upsertTraderStats; split <;> rfl

lemma upsertTraderStats_nextPositionId (db : DB) (t : Trade) :
    (upsertTraderStats db t).nextPositionId = db.nextPositionId := by
  unfold upsertTraderStats; split <;> rfl

lemma updateTraderPosition_trades (db : DB) (t : Trade) :
    (updateTraderPosition db t).trades = db.trades := by
  unfold updateTraderPosition; split <;> rfl

lemma updateTraderPosition_traders (db : DB) (t : Trade) :
    (updateTraderPosition db t).traders = db.traders := by
  unfold updateTraderPosition; split <;> rfl

lemma updateTraderPosition_alerts (db : DB) (t : Trade) :
    (updateTraderPosition db t).alerts = db.alerts := by
  unfold updateTraderPosition; split <;> rfl

lemma checkForAlerts_trades (db : DB) (t : Trade) :
    (checkForAlerts db t).trades = db.trades := by
  unfold checkForAlerts; split <;> [rfl; split <;> rfl]

lemma checkForAlerts_traders (db : DB) (t : Trade) :
    (checkForAlerts db t).traders = db.traders := by
  unfold checkForAlerts; split <;> [rfl; split <;> rfl]

lemma checkForAlerts_positions (db : DB) (t : Trade) :
    (checkForAlerts db t).positions = db.positions := by
  unfold checkForAlerts; split <;> [rfl; split <;> rfl]

lemma checkForAlerts_nextPositionId (db : DB) (t : Trade) :
    (checkForAlerts db t).nextPositionId = db.nextPositionId := by
  unfold checkForAlerts; split <;> [rfl; split <;> rfl]

/-- Pushing `find?` through the conditional row update an SQL
`UPDATE ... WHERE` (or an upsert's conflict branch) performs: when the
predicate is preserved by the update, the first matching row is updated in
place. -/
lemma find?_map_update {α : Type} (p : α → Bool) (g : α → α)
    (hg : ∀ x, p x = true → p (g x) = true)
    (l : List α) (r : α) (h : l.find? p = some r) :
    (l.map (fun x => if p x then g x else x)).find? p = some (g r) := by
  induction l with
  | nil => simp at h
  | cons a l ih =>
    by_cases hpa : p a = true
    · rw [List.find?_cons_of_pos _ hpa] at h
      cases h
      rw [List.map_cons, if_pos hpa, List.find?_cons_of_pos _ (hg r hpa)]
    · rw [List.find?_cons_of_neg _ hpa] at h
      rw [List.map_cons, if_neg hpa, List.find?_cons_of_neg _ hpa]
      exact ih h

/-- `findTrader` sees through the trade-fact insert. -/
lemma findTrader_insertTradeRow (db : DB) (t : Trade) (a : String) :
    findTrader (insertTradeRow db t) a = findTrader db a := by
  unfold findTrader
  rw [insertTradeRow_traders]

/-- `findTrader` sees through the position update. -/
lemma findTrader_updateTraderPosition (db : DB) (t : Trade) (a : String) :
    findTrader (updateTraderPosition db t) a = findTrader db a := by
  unfold findTrader
  rw [updateTraderPosition_traders]

/-- `findTrader` sees through the alert check. -/
lemma findTrader_checkForAlerts (db : DB) (t : Trade) (a : String) :
    findTrader (checkForAlerts db t) a = findTrader db a := by
  unfold findTrader
  rw [checkForAlerts_traders]

/-- The conflict branch of the traders upsert in `storeTrade`: an existing
trader row gets total_volume + amount, total_bets + 1, and last_activity
overwritten with the trade's timestamp. -/
lemma findTrader_upsertTraderStats (db : DB) (t : Trade) (r : TraderRow)
    (h : findTrader db t.traderId = some r) :
    findTrader (upsertTraderStats db t) t.traderId =
      some { r with totalVolume := r.totalVolume + t.amount,
                    totalBets := r.totalBets + 1,
                    lastActivity := t.timestamp } := by
  unfold findTrader at h
  have hmem : r ∈ db.traders := List.mem_of_find?_eq_some h
  have hpr := List.find?_some h
  have hany : db.traders.any (fun x => x.address == t.traderId) = true :=
    List.any_eq_true.mpr ⟨r, hmem, hpr⟩
  unfold upsertTraderStats findTrader
  rw [if_pos hany]
  exact find?_map_update (fun x => x.address == t.traderId)
    (fun x => { x with totalVolume := x.totalVolume + t.amount,
                       totalBets := x.totalBets + 1,
                       lastActivity := t.timestamp })
    (fun x hx => hx) db.traders r h

/-- The insert branch of the traders upsert in `storeTrade`: with no
existing row, a fresh row (amount, 1 bet, trade timestamp) is appended. -/
lemma findTrader_upsertTraderStats_new (db : DB) (t : Trade)
    (h : findTrader db t.traderId = none) :
    findTrader (upsertTraderStats db t) t.traderId =
      some ⟨t.traderId, t.amount, 1, 0, 0, 0, t.timestamp⟩ := by
  unfold findTrader at h
  have hnone : ∀ x ∈ db.traders, ¬(x.address == t.traderId) = true :=
    List.find?_eq_none.mp h
  have hany : db.traders.any (fun x => x.address == t.traderId) = false := by
    rw [← Bool.not_eq_true, List.any_eq_true]
    rintro ⟨x, hx, hpx⟩
    exact hnone x hx hpx
  unfold upsertTraderStats
  rw [hany]
  unfold findTrader
  simp [List.find?_append, h]

/-- The per-call effect of `storeTrade` on an existing trader row. -/
lemma findTrader_storeTrade (db : DB) (t : Trade) (r : TraderRow)
    (h : findTrader db t.traderId = some r) :
    findTrader (storeTrade db t) t.traderId =
      some { r with totalVolume := r.totalVolume + t.amount,
                    totalBets := r.totalBets + 1,
                    lastActivity := t.timestamp } := by
  unfold storeTrade
  rw [findTrader_checkForAlerts, findTrader_updateTraderPosition]
  exact findTrader_upsertTraderStats (insertTradeRow db t) t r
    (by rw [findTrader_insertTradeRow]; exact h)

/-- C5: the alert classification is a pure function of the trade's notional
amount with thresholds 50000 (mega_whale) and 10000 (whale): for every
trade, `checkForAlerts` appends exactly the alert row the classification
dictates (never more than one), and the boundary values behave as stated:
9999.99 → none, 10000 → whale, 49999.99 → whale, 50000 → mega_whale. -/
theorem C5_alert_classification :
    (∀ (db : DB) (t : Trade), (checkForAlerts db t).alerts =
      db.alerts ++ (match classify t.amount with
        | AlertKind.megaWhale => [⟨"mega_whale", t.traderId, t.marketId, t.amount⟩]
        | AlertKind.whale => [⟨"whale", t.traderId, t.marketId, t.amount⟩]
        | AlertKind.none => []))
    ∧ classify (9999.99 : ℚ) = AlertKind.none
    ∧ classify 10000 = AlertKind.whale
    ∧ classify (49999.99 : ℚ) = AlertKind.whale
    ∧ classify 50000 = AlertKind.megaWhale := by
  refine ⟨?_, by norm_num [classify], by norm_num [classify],
    by norm_num [classify], by norm_num [classify]⟩
  intro db t
  unfold checkForAlerts classify
  by_cases h1 : t.amount ≥ 50000
  · simp [h1]
  · by_cases h2 : t.amount ≥ 10000 <;> simp [h1, h2]

/-- C8 counterexample: the feed record of notional 100 · 0.5 = 50 (below the
dust threshold) is skipped outright by the edge-function loop — the ledger
is left untouched and no trade row is recorded, contradicting the claim that
such trades are accepted and recorded. -/
theorem C8_counterexample :
    fetchTradesStep emptyDB dustFeed = emptyDB ∧
    (fetchTradesStep emptyDB dustFeed).trades = [] := by
  norm_num [fetchTradesStep, dustFeed, emptyDB, feedUpsertTradeRow, feedUpsertTrader]

/-- C8 amended: every feed trade whose notional amount size · price is below
100 is skipped entirely by the edge-function loop: nothing is stored, no
stat is updated, no alert is emitted, and nothing is flagged. -/
theorem C8_amended (db : DB) (t : FeedTrade) (h : t.size * t.price < 100) :
    fetchTradesStep db t = db := by
  unfold fetchTradesStep
  simp [h]

/-- Witness for C8 amended at the concrete dust feed record. -/
theorem C8_amended_witness :
    dustFeed.size * dustFeed.price < 100 ∧ fetchTradesStep emptyDB dustFeed = emptyDB :=
  ⟨by norm_num [dustFeed], C8_amended emptyDB dustFeed (by norm_num [dustFeed])⟩

/-- C4 counterexample: re-submitting the identical 50000-notional trade
produces a second alert row (2 after two applications, 1 after one),
contradicting the claim that at most one alert is ever emitted per trade
id and that a duplicate insert is a no-op. -/
theorem C4_counterexample :
    (storeTrade emptyDB megaTrade).alerts.length = 1 ∧
    (storeTrade (storeTrade emptyDB megaTrade) megaTrade).alerts.length = 2 := by
  norm_num [storeTrade, insertTradeRow, upsertTraderStats, updateTraderPosition,
    checkForAlerts, matchesOpen, emptyDB, megaTrade]

/-- C4 amended: alert rows carry no trade id and the alerts table has no
uniqueness constraint, so every application of a trade with notional
≥ 10000 — including a re-submission of an already-applied trade — appends
one more alert row. -/
theorem C4_amended (db : DB) (t : Trade) (h : t.amount ≥ 10000) :
    (storeTrade db t).alerts.length = db.alerts.length + 1 := by
  have halerts : (updateTraderPosition (upsertTraderStats (insertTradeRow db t) t) t).alerts
      = db.alerts := by
    rw [updateTraderPosition_alerts, upsertTraderStats_alerts, insertTradeRow_alerts]
  unfold storeTrade checkForAlerts
  by_cases h1 : t.amount ≥ 50000
  · simp [h1, halerts]
  · simp [h1, h, halerts]

/-- Witness for C4 amended: the second application of the mega-whale trade
adds one alert on top of the first application's alert. -/
theorem C4_amended_witness :
    megaTrade.amount ≥ 10000 ∧
    (storeTrade (storeTrade emptyDB megaTrade) megaTrade).alerts.length =
      (storeTrade emptyDB megaTrade).alerts.length + 1 :=
  ⟨by norm_num [megaTrade],
   C4_amended (storeTrade emptyDB megaTrade) megaTrade (by norm_num [megaTrade])⟩

/-- C1: applying the same trade twice is not idempotent. The trade-fact
table stays deduplicated (1 row), but the second application doubles the
trader's total_volume (10000 vs 5000) and total_bets (2 vs 1) and doubles
the position's shares (25000 vs 12500): the uniqueness constraint is only
consulted by the trade insert, never before the aggregate mutations. -/
theorem C1_double_application_diverges :
    (storeTrade (storeTrade emptyDB tradeA) tradeA).trades.length = 1 ∧
    findTrader (storeTrade emptyDB tradeA) "alice" =
      some ⟨"alice", 5000, 1, 0, 0, 0, 100⟩ ∧
    findTrader (storeTrade (storeTrade emptyDB tradeA) tradeA) "alice" =
      some ⟨"alice", 10000, 2, 0, 0, 0, 100⟩ ∧
    (storeTrade emptyDB tradeA).positions =
      [⟨1, "alice", "m1", "Yes", 12500, 2/5, "open", false, Option.none⟩] ∧
    (storeTrade (storeTrade emptyDB tradeA) tradeA).positions =
      [⟨1, "alice", "m1", "Yes", 25000, 2/5, "open", false, Option.none⟩] := by
  norm_num [storeTrade, insertTradeRow, upsertTraderStats, updateTraderPosition,
    checkForAlerts, matchesOpen, emptyDB, tradeA, findTrader]

/-- The conflict branch of the edge-function traders upsert: the existing
row's total_volume, total_bets and last_activity are replaced by the
supplied values. -/
lemma findTrader_feedUpsertTrader (db : DB) (addr : String) (amount : ℚ) (ts : ℤ)
    (r : TraderRow) (h : findTrader db addr = some r) :
    findTrader (feedUpsertTrader db addr amount ts) addr =
      some { r with totalVolume := amount, totalBets := 1, lastActivity := ts } := by
  unfold findTrader at h
  have hpr := List.find?_some h
  have hany : db.traders.any (fun x => x.address == addr) = true :=
    List.any_eq_true.mpr ⟨r, List.mem_of_find?_eq_some h, hpr⟩
  unfold feedUpsertTrader findTrader
  rw [if_pos hany]
  exact find?_map_update (fun x => x.address == addr)
    (fun x => { x with totalVolume := amount, totalBets := 1, lastActivity := ts })
    (fun x hx => hx) db.traders r h

/-- C7 counterexample: after a trade at event time 100 followed by one at
event time 50 for the same trader, last_activity is 50 — the code overwrites
it with each trade's timestamp — while the claim's max(100, 50) = 100. -/
theorem C7_counterexample :
    findTrader (storeTrade (storeTrade emptyDB tradeA) tradeOld) "alice" =
      some ⟨"alice", 5300, 2, 0, 0, 0, 50⟩ ∧
    max (100 : ℤ) 50 = 100 ∧ (50 : ℤ) ≠ 100 := by
  have h1 : ("0xa" : String) ≠ "0xt2" := by decide
  norm_num [storeTrade, insertTradeRow, upsertTraderStats, updateTraderPosition,
    checkForAlerts, matchesOpen, emptyDB, tradeA, tradeOld, findTrader, h1]

/-- C7 amended: in `storeTrade`, each call adds the trade's notional to
total_volume, adds 1 to total_bets, and overwrites last_activity with the
trade's occurredAt (not the max — it can move backwards); consequently,
after a sequence of trades for one trader, total_volume equals the prior
value plus the sum of their notionals and total_bets grows by their count.
A trader seen for the first time gets a fresh row (notional, 1, occurredAt).
In the edge-function path, by contrast, the traders upsert replaces
total_volume with the single trade's notional and total_bets with 1. -/
theorem C7_amended :
    (∀ (db : DB) (t : Trade) (r : TraderRow), findTrader db t.traderId = some r →
        findTrader (storeTrade db t) t.traderId =
          some { r with totalVolume := r.totalVolume + t.amount,
                        totalBets := r.totalBets + 1,
                        lastActivity := t.timestamp })
  ∧ (∀ (db : DB) (t : Trade), findTrader db t.traderId = none →
        findTrader (storeTrade db t) t.traderId =
          some ⟨t.traderId, t.amount, 1, 0, 0, 0, t.timestamp⟩)
  ∧ (∀ (addr : String) (l : List Trade) (db : DB) (r : TraderRow),
        (∀ t ∈ l, t.traderId = addr) → findTrader db addr = some r →
        ∃ r', findTrader (l.foldl storeTrade db) addr = some r' ∧
          r'.totalVolume = r.totalVolume + (l.map Trade.amount).sum ∧
          r'.totalBets = r.totalBets + l.length)
  ∧ (∀ (db : DB) (addr : String) (amount : ℚ) (ts : ℤ) (r : TraderRow),
        findTrader db addr = some r →
        findTrader (feedUpsertTrader db addr amount ts) addr =
          some { r with totalVolume := amount, totalBets := 1, lastActivity := ts }) := by
  refine ⟨findTrader_storeTrade, ?_, ?_, findTrader_feedUpsertTrader⟩
  · intro db t h
    unfold storeTrade
    rw [findTrader_checkForAlerts, findTrader_updateTraderPosition]
    exact findTrader_upsertTraderStats_new (insertTradeRow db t) t
      (by rw [findTrader_insertTradeRow]; exact h)
  · intro addr l
    induction l with
    | nil =>
      intro db r _ h
      exact ⟨r, h, by simp, by simp⟩
    | cons t rest ih =>
      intro db r hall h
      have hid : t.traderId = addr := hall t (by simp)
      have h1 : findTrader (storeTrade db t) addr =
          some { r with totalVolume := r.totalVolume + t.amount,
                        totalBets := r.totalBets + 1,
                        lastActivity := t.timestamp } := by
        rw [← hid] at h ⊢
        exact findTrader_storeTrade db t r h
      obtain ⟨r', hr', hv, hb⟩ :=
        ih (storeTrade db t) _ (fun u hu => hall u (List.mem_cons_of_mem _ hu)) h1
      refine ⟨r', hr', ?_, ?_⟩
      · rw [hv]; simp; ring
      · rw [hb]; simp; omega

/-- Witness for C7 amended: the per-call update, the two-trade fold, and the
replacing edge-function upsert, all from alice's zeroed trader row. -/
theorem C7_amended_witness :
    (findTrader (storeTrade dbAlice tradeA) "alice" =
      some ⟨"alice", 0 + 5000, 0 + 1, 0, 0, 0, 100⟩) ∧
    (∃ r', findTrader ([tradeA, tradeOld].foldl storeTrade dbAlice) "alice" = some r' ∧
      r'.totalVolume = 0 + ([tradeA, tradeOld].map Trade.amount).sum ∧
      r'.totalBets = 0 + [tradeA, tradeOld].length) ∧
    (findTrader (feedUpsertTrader dbAlice "alice" 7 9) "alice" =
      some ⟨"alice", 7, 1, 0, 0, 0, 9⟩) := by
  obtain ⟨h1, _, h3, h4⟩ := C7_amended
  refine ⟨h1 dbAlice tradeA ⟨"alice", 0, 0, 0, 0, 0, 0⟩ rfl,
    h3 "alice" [tradeA, tradeOld] dbAlice ⟨"alice", 0, 0, 0, 0, 0, 0⟩ (by decide) rfl,
    h4 dbAlice "alice" 7 9 ⟨"alice", 0, 0, 0, 0, 0, 0⟩ rfl⟩

/-- C6 counterexample: a failure during the position-update step (whose
error is swallowed by `updateTraderPosition`'s own catch) leaves the ledger
with total_bets already incremented (1, up from 0) while the positions
table is untouched — exactly the partial effect the claim rules out. -/
theorem C6_counterexample :
    (storeTradeFailing (some FailStep.updatePosition) dbAlice tradeA).positions
      = dbAlice.positions ∧
    findTrader (storeTradeFailing (some FailStep.updatePosition) dbAlice tradeA) "alice" =
      some ⟨"alice", 5000, 1, 0, 0, 0, 100⟩ ∧
    findTrader dbAlice "alice" = some ⟨"alice", 0, 0, 0, 0, 0, 0⟩ ∧
    dbAlice.positions = [] := by
  norm_num [storeTradeFailing, storeTrade, insertTradeRow, upsertTraderStats,
    checkForAlerts, dbAlice, tradeA, findTrader]

/-- C6 amended: the four steps of `storeTrade` are separate auto-committed
statements with no enclosing transaction, so a failure mid-application
keeps every effect already applied: a failure in the position update (step
3) leaves the positions table untouched while the trader's total_volume and
total_bets are already incremented and last_activity already overwritten. -/
theorem C6_amended (db : DB) (t : Trade) (r : TraderRow)
    (h : findTrader db t.traderId = some r) :
    (storeTradeFailing (some FailStep.updatePosition) db t).positions = db.positions ∧
    findTrader (storeTradeFailing (some FailStep.updatePosition) db t) t.traderId =
      some { r with totalVolume := r.totalVolume + t.amount,
                    totalBets := r.totalBets + 1,
                    lastActivity := t.timestamp } := by
  unfold storeTradeFailing
  constructor
  · rw [checkForAlerts_positions, upsertTraderStats_positions, insertTradeRow_positions]
  · rw [findTrader_checkForAlerts]
    exact findTrader_upsertTraderStats (insertTradeRow db t) t r
      (by rw [findTrader_insertTradeRow]; exact h)

/-- Witness for C6 amended at alice's zeroed trader row. -/
theorem C6_amended_witness :
    (storeTradeFailing (some FailStep.updatePosition) dbAlice tradeA).positions
      = dbAlice.positions ∧
    findTrader (storeTradeFailing (some FailStep.updatePosition) dbAlice tradeA) "alice" =
      some ⟨"alice", 0 + 5000, 0 + 1, 0, 0, 0, 100⟩ :=
  C6_amended dbAlice tradeA ⟨"alice", 0, 0, 0, 0, 0, 0⟩ rfl

/-! The weighted-average-cost arithmetic of `updateTraderPosition`. -/

lemma fillShares_cons (f : ℚ × ℚ) (l : List (ℚ × ℚ)) :
    fillShares (f :: l) = f.1 / f.2 + fillShares l := by
  simp [fillShares]

lemma fillNotional_cons (f : ℚ × ℚ) (l : List (ℚ × ℚ)) :
    fillNotional (f :: l) = f.1 + fillNotional l := by
  simp [fillNotional]

lemma fillShares_nonneg (l : List (ℚ × ℚ)) (h : ∀ f ∈ l, 0 < f.1 ∧ 0 < f.2) :
    0 ≤ fillShares l := by
  induction l with
  | nil => simp [fillShares]
  | cons f rest ih =>
    have hf := h f (by simp)
    have := ih (fun g hg => h g (List.mem_cons_of_mem _ hg))
    rw [fillShares_cons]
    have hd : 0 < f.1 / f.2 := div_pos hf.1 hf.2
    linarith

lemma fillShares_pos (f : ℚ × ℚ) (l : List (ℚ × ℚ))
    (h : ∀ g ∈ f :: l, 0 < g.1 ∧ 0 < g.2) : 0 < fillShares (f :: l) := by
  have hf := h f (by simp)
  have hrest := fillShares_nonneg l (fun g hg => h g (List.mem_cons_of_mem _ hg))
  rw [fillShares_cons]
  have hd : 0 < f.1 / f.2 := div_pos hf.1 hf.2
  linarith

/-- One step of the existing-position branch, rewritten on a state whose
avgPrice is presented as cost/shares: the code's formula adds amount/price
to the shares and amount to the accumulated cost. -/
lemma positionStep_formula (S N n p : ℚ) (hS : S ≠ 0) (hp : p ≠ 0) :
    positionStep (S, N / S) n p = (S + n / p, (N + n) / (S + n / p)) := by
  unfold positionStep
  have h1 : S * (N / S) = N := by field_simp
  have h2 : n / p * p = n := div_mul_cancel₀ _ hp
  simp only [h1, h2]

/-- Folding the code's update over a list of positive fills starting from a
state (S, N/S) with S > 0 accumulates the share and notional sums. -/
lemma foldl_positionStep (l : List (ℚ × ℚ)) :
    ∀ S N : ℚ, 0 < S → (∀ f ∈ l, 0 < f.1 ∧ 0 < f.2) →
      l.foldl (fun pos g => positionStep pos g.1 g.2) (S, N / S) =
        (S + fillShares l, (N + fillNotional l) / (S + fillShares l)) := by
  induction l with
  | nil =>
    intro S N hS _
    simp [fillShares, fillNotional]
  | cons f rest ih =>
    intro S N hS hl
    have hf := hl f (by simp)
    have hfr : 0 < f.1 / f.2 := div_pos hf.1 hf.2
    rw [List.foldl_cons, positionStep_formula S N f.1 f.2 (ne_of_gt hS) (ne_of_gt hf.2),
      ih (S + f.1 / f.2) (N + f.1) (by linarith)
        (fun g hg => hl g (List.mem_cons_of_mem _ hg)),
      fillShares_cons, fillNotional_cons]
    simp [add_assoc]

/-- The closed form of a position built by `updateTraderPosition` from a
nonempty sequence of positive fills: shares are the sum of the per-fill
share deltas and avgPrice is total notional over total shares. -/
lemma applyFills_formula (l : List (ℚ × ℚ)) (hne : l ≠ [])
    (h : ∀ f ∈ l, 0 < f.1 ∧ 0 < f.2) :
    applyFills l = some (fillShares l, fillNotional l / fillShares l) := by
  match l, hne with
  | f :: rest, _ =>
    have hf := h f (by simp)
    have hS : (0 : ℚ) < f.1 / f.2 := div_pos hf.1 hf.2
    have hinit : f.2 = f.1 / (f.1 / f.2) := by
      rw [div_div_eq_mul_div, mul_comm, mul_div_assoc, div_self (ne_of_gt hf.1), mul_one]
    have hpair : ((f.1 / f.2, f.2) : ℚ × ℚ) = (f.1 / f.2, f.1 / (f.1 / f.2)) := by
      rw [← hinit]
    show some (rest.foldl (fun pos g => positionStep pos g.1 g.2) (f.1 / f.2, f.2)) = _
    rw [hpair, foldl_positionStep rest (f.1 / f.2) f.1 hS
      (fun g hg => h g (List.mem_cons_of_mem _ hg)),
      fillShares_cons, fillNotional_cons]

/-- C2: the weighted-average-cost position update. An existing open position
(shares₀, avgPrice₀) for the trade's key becomes
(shares₀ + n/p, (shares₀·avgPrice₀ + (n/p)·p)/(shares₀ + n/p)); with no
open position for the key, a fresh open position (n/p, p) is created; and a
position built from a nonempty sequence of positive fills (nᵢ, pᵢ) has
shares = Σ nᵢ/pᵢ and avgPrice = Σ nᵢ / Σ (nᵢ/pᵢ). -/
theorem C2_weighted_average_position :
    (∀ (db : DB) (t : Trade) (pos : PositionRow),
        db.positions.find? (matchesOpen t) = some pos →
        (updateTraderPosition db t).positions = db.positions.map (fun p =>
          if p.id == pos.id then
            { p with shares := pos.shares + t.amount / t.price,
                     avgPrice := (pos.shares * pos.avgPrice + (t.amount / t.price) * t.price)
                       / (pos.shares + t.amount / t.price) }
          else p))
  ∧ (∀ (db : DB) (t : Trade),
        db.positions.find? (matchesOpen t) = none →
        (updateTraderPosition db t).positions = db.positions ++
          [⟨db.nextPositionId, t.traderId, t.marketId, t.outcome, t.amount / t.price,
            t.price, "open", false, Option.none⟩])
  ∧ (∀ l : List (ℚ × ℚ), l ≠ [] → (∀ f ∈ l, 0 < f.1 ∧ 0 < f.2 ∧ f.2 ≤ 1) →
        applyFills l = some (fillShares l, fillNotional l / fillShares l)) := by
  refine ⟨?_, ?_, ?_⟩
  · intro db t pos h
    unfold updateTraderPosition
    rw [h]
  · intro db t h
    unfold updateTraderPosition
    rw [h]
  · intro l hne h
    exact applyFills_formula l hne (fun f hf => ⟨(h f hf).1, (h f hf).2.1⟩)

/-- Witness for C2 at the spec scenario: alice's open position of 12500
shares at 0.4 absorbs a 3000-notional fill at 0.6, a first fill creates a
fresh position, and the two-fill closed form holds. -/
theorem C2_witness :
    ((updateTraderPosition dbOpen tradeB).positions = dbOpen.positions.map (fun p =>
      if p.id == (1 : ℕ) then
        { p with shares := (12500 : ℚ) + tradeB.amount / tradeB.price,
                 avgPrice := ((12500 : ℚ) * (2/5) + (tradeB.amount / tradeB.price) * tradeB.price)
                   / ((12500 : ℚ) + tradeB.amount / tradeB.price) }
      else p)) ∧
    ((updateTraderPosition emptyDB tradeA).positions = emptyDB.positions ++
      [⟨1, "alice", "m1", "Yes", tradeA.amount / tradeA.price, tradeA.price,
        "open", false, Option.none⟩]) ∧
    (applyFills [(5000, 2/5), (3000, 3/5)] =
      some (fillShares [(5000, 2/5), (3000, 3/5)],
        fillNotional [(5000, 2/5), (3000, 3/5)] / fillShares [(5000, 2/5), (3000, 3/5)])) := by
  obtain ⟨h1, h2, h3⟩ := C2_weighted_average_position
  refine ⟨h1 dbOpen tradeB ⟨1, "alice", "m1", "Yes", 12500, 2/5, "open", false, Option.none⟩ rfl,
    h2 emptyDB tradeA rfl, h3 [(5000, 2/5), (3000, 3/5)] (by simp) ?_⟩
  rintro f hf
  simp only [List.mem_cons, List.not_mem_nil, or_false] at hf
  rcases hf with rfl | rfl <;> norm_num

lemma fillShares_pos_of_ne_nil (l : List (ℚ × ℚ)) (hne : l ≠ [])
    (h : ∀ f ∈ l, 0 < f.1 ∧ 0 < f.2) : 0 < fillShares l := by
  cases l with
  | nil => exact absurd rfl hne
  | cons f rest => exact fillShares_pos f rest h

/-- Sum of the per-trade P/L contributions of winning trades: each trade of
notional n at price p contributes n · (1/p − 1). -/
lemma sum_winning_pl (l : List (ℚ × ℚ)) :
    (l.map (fun f => f.1 * (1 / f.2 - 1))).sum = fillShares l - fillNotional l := by
  induction l with
  | nil => simp [fillShares, fillNotional]
  | cons f rest ih =>
    simp only [List.map_cons, List.sum_cons, ih, fillShares_cons, fillNotional_cons]
    ring

/-- Sum of the per-trade P/L contributions of losing trades: each trade of
notional n contributes −n. -/
lemma sum_losing_pl (l : List (ℚ × ℚ)) :
    (l.map (fun f => -f.1)).sum = -fillNotional l := by
  induction l with
  | nil => simp [fillNotional]
  | cons f rest ih =>
    simp only [List.map_cons, List.sum_cons, ih, fillNotional_cons]
    ring

/-- C3: settlement correctness. For a position built from a nonempty
sequence of positive fills with prices in (0,1], having shares S and
avgPrice A, the per-trade sum computed by the CASE expression of
`calculate_trader_performance` — Σ nᵢ·(1/pᵢ − 1) over winning trades,
−Σ nᵢ over losing trades — equals the position-level formulas
S·(1 − A) for a winning position and −S·A for a losing one. -/
theorem C3_settlement_pl (l : List (ℚ × ℚ)) (o w : String) (hne : l ≠ [])
    (h : ∀ f ∈ l, 0 < f.1 ∧ 0 < f.2 ∧ f.2 ≤ 1) (S A : ℚ)
    (hSA : applyFills l = some (S, A)) :
    ((tradeRowsOf o l).map (tradePL true (some w))).sum =
      if w = o then S * (1 - A) else -(S * A) := by
  have hpos : ∀ f ∈ l, 0 < f.1 ∧ 0 < f.2 := fun f hf => ⟨(h f hf).1, (h f hf).2.1⟩
  rw [applyFills_formula l hne hpos] at hSA
  simp only [Option.some.injEq, Prod.mk.injEq] at hSA
  obtain ⟨hS, hA⟩ := hSA
  subst hS
  subst hA
  have hSpos : 0 < fillShares l := fillShares_pos_of_ne_nil l hne hpos
  have hSne : fillShares l ≠ 0 := ne_of_gt hSpos
  unfold tradeRowsOf
  rw [List.map_map]
  by_cases hw : w = o
  · subst hw
    have hcomp : (tradePL true (some w)) ∘ (fun f : ℚ × ℚ => ⟨"", "", "", w, f.1, f.2, 0⟩)
        = fun f : ℚ × ℚ => f.1 * (1 / f.2 - 1) := by
      funext f
      simp [tradePL, Function.comp]
    rw [hcomp, sum_winning_pl, if_pos rfl]
    field_simp
  · have hcomp : (tradePL true (some w)) ∘ (fun f : ℚ × ℚ => ⟨"", "", "", o, f.1, f.2, 0⟩)
        = fun f : ℚ × ℚ => -f.1 := by
      funext f
      simp [tradePL, Function.comp, hw]
    rw [hcomp, sum_losing_pl, if_neg hw]
    rw [mul_div_cancel₀ _ hSne]

/-- Witness for C3 at the two-fill position (17500 shares, avgPrice 16/35),
settled in its favor. -/
theorem C3_settlement_pl_witness :
    ((tradeRowsOf "Yes" [(5000, 2/5), (3000, 3/5)]).map (tradePL true (some "Yes"))).sum =
      if "Yes" = "Yes" then (17500 : ℚ) * (1 - 16/35) else -((17500 : ℚ) * (16/35)) := by
  refine C3_settlement_pl [(5000, 2/5), (3000, 3/5)] "Yes" "Yes" (by simp) ?_ 17500 (16/35) ?_
  · rintro f hf
    simp only [List.mem_cons, List.not_mem_nil, or_false] at hf
    rcases hf with rfl | rfl <;> norm_num
  · norm_num [applyFills, positionStep]

/-- C9: a trade arriving for a key whose existing positions are all
non-open (e.g. settled) creates a fresh open position with
shares = notional/price and avgPrice = price, appended after the existing
rows — the settled position's shares, avg_price and status are untouched
(the SELECT filters on status = open, so it never sees the settled row). -/
theorem C9_fresh_position_after_settlement (db : DB) (t : Trade)
    (h : ∀ p ∈ db.positions, p.traderAddress = t.traderId → p.marketId = t.marketId →
         p.outcome = t.outcome → p.status ≠ "open") :
    (updateTraderPosition db t).positions =
      db.positions ++ [⟨db.nextPositionId, t.traderId, t.marketId, t.outcome,
        t.amount / t.price, t.price, "open", false, Option.none⟩] ∧
    (∀ p ∈ db.positions, p ∈ (updateTraderPosition db t).positions) := by
  have hnone : db.positions.find? (matchesOpen t) = none := by
    rw [List.find?_eq_none]
    intro p hp
    simp only [matchesOpen, Bool.and_eq_true, beq_iff_eq]
    rintro ⟨⟨⟨h1, h2⟩, h3⟩, h4⟩
    exact h p hp h1 h2 h3 h4
  have hmain : (updateTraderPosition db t).positions =
      db.positions ++ [⟨db.nextPositionId, t.traderId, t.marketId, t.outcome,
        t.amount / t.price, t.price, "open", false, Option.none⟩] := by
    unfold updateTraderPosition
    rw [hnone]
  exact ⟨hmain, fun p hp => by rw [hmain]; exact List.mem_append_left _ hp⟩

/-- Witness for C9: a new fill on (alice, m1, Yes) lands next to the
already-settled position for the same key without touching it. -/
theorem C9_fresh_position_witness :
    (∀ p ∈ dbSettled.positions, p.traderAddress = tradeB.traderId →
        p.marketId = tradeB.marketId → p.outcome = tradeB.outcome → p.status ≠ "open") ∧
    (updateTraderPosition dbSettled tradeB).positions =
      dbSettled.positions ++ [⟨2, "alice", "m1", "Yes", tradeB.amount / tradeB.price,
        tradeB.price, "open", false, Option.none⟩] := by
  have h : ∀ p ∈ dbSettled.positions, p.traderAddress = tradeB.traderId →
      p.marketId = tradeB.marketId → p.outcome = tradeB.outcome → p.status ≠ "open" := by
    decide
  exact ⟨h, (C9_fresh_position_after_settlement dbSettled tradeB h).1⟩

/-- C10: recomputing trader stats for an address that has no resolved
position is a no-op — the UPDATE only runs when the aggregate COUNT over
resolved rows is positive, so wins, losses and profit_loss keep their prior
values. -/
theorem C10_stats_frame (db : DB) (address : String)
    (h : ∀ p ∈ db.positions, p.traderAddress = address → p.resolved = false) :
    calculateTraderStats db address = db := by
  have hfilter : db.positions.filter (fun p => p.traderAddress == address && p.resolved) = [] := by
    rw [List.filter_eq_nil_iff]
    intro p hp
    simp only [Bool.and_eq_true, beq_iff_eq]
    rintro ⟨h1, h2⟩
    rw [h p hp h1] at h2
    exact Bool.false_ne_true h2
  unfold calculateTraderStats
  rw [hfilter]
  simp

/-- Witness for C10: carol's row (2 wins, 1 loss, profit 7) is untouched by
a stat recomputation while her only position is unresolved. -/
theorem C10_stats_frame_witness :
    (∀ p ∈ dbCarol.positions, p.traderAddress = "carol" → p.resolved = false) ∧
    calculateTraderStats dbCarol "carol" = dbCarol :=
  ⟨by decide, C10_stats_frame dbCarol "carol" (by decide)⟩

end PolymarketTracker
